import Mathlib

/-!
Verification development for the iOverlay Python binding crate.

The repository under verification is a pyo3 binding layer around the
iOverlay polygon-boolean engine.  The binding code (type conversions,
option/style structures, entry points) is embedded here directly from the
Rust sources.  The wrapped engine crate `i_overlay_core` is not part of the
repository's sources; where a property depends on it, the engine is
modelled from the specification (each such definition carries a doc
comment starting with "Modelled from the spec:").  64-bit floats are
modelled by rationals: none of the verified properties depend on rounding,
only on values being stored and moved around unchanged.
-/

namespace IOverlay

/-! ## Core geometric types, mirroring src/types.rs -/

/-- A point, mirroring the Rust alias `Point = [f64; 2]` (index 0 is x, index 1 is y). -/
structure Point where
  x : ℚ
  y : ℚ
deriving DecidableEq, Repr

/-- A contour (closed path), mirroring `Contour = Vec<Point>`. -/
abbrev Contour := List Point

/-- A shape: first contour is the outer boundary, the rest are holes
(`Shape = Vec<Contour>`). -/
abbrev Shape := List Contour

/-- A collection of shapes (`Shapes = Vec<Shape>`). -/
abbrev Shapes := List Shape

/-- An open path (`Path = Vec<Point>`). -/
abbrev OpenPath := List Point

/-- A collection of open paths (`Paths = Vec<Path>`). -/
abbrev Paths := List OpenPath

/-! ## Host-side (Python) representations crossing the boundary.
A point crosses the boundary as a `(float, float)` tuple. -/

abbrev PyPoint := ℚ × ℚ
abbrev PyContour := List PyPoint
abbrev PyShape := List PyContour
abbrev PyShapes := List PyShape
abbrev PyPaths := List PyContour

/-- Errors surfaced to the host.  In `types.rs` the only possible failure
is a host-side type mismatch raised by pyo3's `extract`; for well-typed
nested sequences (the domain of these embeddings) no error path exists. -/
abbrev PyErr := String

/-- Embeds `extract_contour` (src/types.rs lines 54-64): converts each
`(f64, f64)` tuple into a `[x, y]` point.  No validation is performed. -/
def extract_contour (obj : PyContour) : Except PyErr Contour :=
  Except.ok (obj.map fun p => ⟨p.1, p.2⟩)

/-- Embeds `extract_shapes` (src/types.rs lines 35-51): converts the nested
Shapes > Shape > Contour > Point structure, calling `extract_contour` for
each contour. -/
def extract_shapes (obj : PyShapes) : Except PyErr Shapes :=
  obj.mapM fun sh => sh.mapM extract_contour

/-- Embeds `extract_paths` (src/types.rs lines 100-110). -/
def extract_paths (obj : PyPaths) : Except PyErr Paths :=
  obj.mapM extract_contour

/-- Embeds `contour_to_python` (src/types.rs lines 89-93). -/
def contour_to_python (c : Contour) : PyContour :=
  c.map fun p => (p.x, p.y)

/-- Embeds `shape_to_python` (src/types.rs lines 79-86). -/
def shape_to_python (s : Shape) : PyShape :=
  s.map contour_to_python

/-- Embeds `shapes_to_python` (src/types.rs lines 69-76). -/
def shapes_to_python (s : Shapes) : PyShapes :=
  s.map shape_to_python

/-- Embeds `paths_to_python` (src/types.rs lines 114-121). -/
def paths_to_python (ps : Paths) : PyPaths :=
  ps.map contour_to_python

/-! ## Enumerations, mirroring src/enums.rs -/

/-- Python-side fill rule (`PyFillRule`). -/
inductive PyFillRule
  | EvenOdd
  | NonZero
  | Positive
  | Negative
deriving DecidableEq, Repr

/-- Engine-side fill rule (`i_overlay_core FillRule`). -/
inductive FillRule
  | EvenOdd
  | NonZero
  | Positive
  | Negative
deriving DecidableEq, Repr

/-- Embeds `impl From<PyFillRule> for FillRule` (src/enums.rs lines 32-41). -/
def PyFillRule.toFillRule : PyFillRule → FillRule
  | .EvenOdd => .EvenOdd
  | .NonZero => .NonZero
  | .Positive => .Positive
  | .Negative => .Negative

/-- Python-side overlay rule (`PyOverlayRule`). -/
inductive PyOverlayRule
  | Subject
  | Clip
  | Intersect
  | Union
  | Difference
  | InverseDifference
  | Xor
deriving DecidableEq, Repr

/-- Engine-side overlay rule (`i_overlay_core OverlayRule`). -/
inductive OverlayRule
  | Subject
  | Clip
  | Intersect
  | Union
  | Difference
  | InverseDifference
  | Xor
deriving DecidableEq, Repr

/-- Embeds `impl From<PyOverlayRule> for OverlayRule` (src/enums.rs lines 83-95). -/
def PyOverlayRule.toOverlayRule : PyOverlayRule → OverlayRule
  | .Subject => .Subject
  | .Clip => .Clip
  | .Intersect => .Intersect
  | .Union => .Union
  | .Difference => .Difference
  | .InverseDifference => .InverseDifference
  | .Xor => .Xor

/-- Python-side contour direction. -/
inductive PyContourDirection
  | CounterClockwise
  | Clockwise
deriving DecidableEq, Repr

/-- Engine-side contour direction. -/
inductive ContourDirection
  | CounterClockwise
  | Clockwise
deriving DecidableEq, Repr

/-- Embeds `impl From<PyContourDirection> for ContourDirection`
(src/enums.rs lines 132-139). -/
def PyContourDirection.toContourDirection : PyContourDirection → ContourDirection
  | .CounterClockwise => .CounterClockwise
  | .Clockwise => .Clockwise

/-- Python-side strategy (`PyStrategy`). -/
inductive PyStrategy
  | List
  | Tree
  | Frag
  | Auto
deriving DecidableEq, Repr

/-- Engine-side strategy. -/
inductive Strategy
  | List
  | Tree
  | Frag
  | Auto
deriving DecidableEq, Repr

/-- Embeds `impl From<PyStrategy> for Strategy` (src/enums.rs lines 204-213). -/
def PyStrategy.toStrategy : PyStrategy → Strategy
  | .List => .List
  | .Tree => .Tree
  | .Frag => .Frag
  | .Auto => .Auto

/-- Python-side line cap (`PyLineCap`). -/
inductive PyLineCap
  | Butt
  | Round
  | Square
deriving DecidableEq, Repr

/-- Python-side line join (`PyLineJoin`). -/
inductive PyLineJoin
  | Bevel
  | Miter
  | Round
deriving DecidableEq, Repr

/-! ## Configuration structures, mirroring src/options.rs -/

/-- Python-side precision (`PyPrecision`), fields `start` and `progression`
are `usize`. -/
structure PyPrecision where
  start : ℕ
  progression : ℕ
deriving DecidableEq, Repr

/-- Engine-side precision. -/
structure Precision where
  start : ℕ
  progression : ℕ
deriving DecidableEq, Repr

/-- The `PyPrecision::HIGH` class attribute (src/options.rs lines 44-48). -/
def PyPrecision.HIGH : PyPrecision := ⟨0, 1⟩

/-- Engine-side multithread options; the binding only uses
`MultithreadOptions::default()`, so the payload is irrelevant here. -/
abbrev MultithreadOptions := Unit

/-- Python-side solver configuration (`PySolver`). -/
structure PySolver where
  strategy : PyStrategy
  precision : PyPrecision
  multithreading : Bool
deriving DecidableEq, Repr

/-- Engine-side solver configuration. -/
structure Solver where
  strategy : Strategy
  precision : Precision
  multithreading : Option MultithreadOptions
deriving DecidableEq, Repr

/-- Modelled from the spec: the engine's `Solver::default()` is not under
src/; per section 3 the Auto strategy with the default precision is the
recommended configuration, and the solver is a pure performance policy
with no observable output (section 4.2), so its exact default value is
inert in this development. -/
def Solver.defaultSolver : Solver :=
  ⟨.Auto, ⟨0, 1⟩, some ()⟩

/-- Embeds `impl From<&PySolver> for Solver` (src/options.rs lines 188-200). -/
def PySolver.toSolver (s : PySolver) : Solver :=
  ⟨s.strategy.toStrategy, ⟨s.precision.start, s.precision.progression⟩,
    if s.multithreading then some () else none⟩

/-- Embeds `build_solver` (src/overlay.rs lines 37-42; identical copies in
slice.rs, clip_ops.rs and simplify.rs). -/
def build_solver (py_solver : Option PySolver) : Solver :=
  match py_solver with
  | some s => s.toSolver
  | none => Solver.defaultSolver

/-- Python-side overlay options (`PyOverlayOptions`); `min_output_area` is
a `u64`, modelled as `ℕ`. -/
structure PyOverlayOptions where
  preserve_input_collinear : Bool
  output_direction : PyContourDirection
  preserve_output_collinear : Bool
  min_output_area : ℕ
deriving DecidableEq, Repr

/-- Embeds `impl Default for PyOverlayOptions` (src/options.rs lines 256-265). -/
def PyOverlayOptions.default : PyOverlayOptions :=
  ⟨false, .CounterClockwise, false, 0⟩

/-- Engine-side float overlay options (`OverlayOptions<f64>`);
`min_output_area` is an `f64`, modelled as `ℚ`. -/
structure OverlayOptions where
  preserve_input_collinear : Bool
  output_direction : ContourDirection
  preserve_output_collinear : Bool
  min_output_area : ℚ
  clean_result : Bool
deriving DecidableEq, Repr

namespace OverlayFfi

/-- Embeds `build_overlay_options` (src/overlay.rs lines 26-34). -/
def build_overlay_options (py_options : PyOverlayOptions) : OverlayOptions :=
  { preserve_input_collinear := py_options.preserve_input_collinear
    output_direction := py_options.output_direction.toContourDirection
    preserve_output_collinear := py_options.preserve_output_collinear
    min_output_area := (py_options.min_output_area : ℚ)
    clean_result := true }

end OverlayFfi

namespace StrokeFfi

/-- Embeds `build_overlay_options` (src/stroke.rs lines 17-25). -/
def build_overlay_options (py_options : PyOverlayOptions) : OverlayOptions :=
  { preserve_input_collinear := py_options.preserve_input_collinear
    output_direction := py_options.output_direction.toContourDirection
    preserve_output_collinear := py_options.preserve_output_collinear
    min_output_area := (py_options.min_output_area : ℚ)
    clean_result := true }

end StrokeFfi

namespace SliceFfi

/-- Embeds `build_overlay_options` (src/slice.rs lines 20-28). -/
def build_overlay_options (py_options : PyOverlayOptions) : OverlayOptions :=
  { preserve_input_collinear := py_options.preserve_input_collinear
    output_direction := py_options.output_direction.toContourDirection
    preserve_output_collinear := py_options.preserve_output_collinear
    min_output_area := (py_options.min_output_area : ℚ)
    clean_result := true }

end SliceFfi

namespace OutlineFfi

/-- Embeds `build_overlay_options` (src/outline.rs lines 17-25). -/
def build_overlay_options (py_options : PyOverlayOptions) : OverlayOptions :=
  { preserve_input_collinear := py_options.preserve_input_collinear
    output_direction := py_options.output_direction.toContourDirection
    preserve_output_collinear := py_options.preserve_output_collinear
    min_output_area := (py_options.min_output_area : ℚ)
    clean_result := true }

end OutlineFfi

/-! ## Style structures, mirroring src/style.rs -/

/-- Embeds `DEFAULT_ROUND_ANGLE = 0.1 * PI` (src/style.rs line 13); the
f64 constant is modelled by a rational approximation, its exact value is
only ever stored and forwarded. -/
def DEFAULT_ROUND_ANGLE : ℚ := 3141592653589793 / 10000000000000000

/-- Embeds `DEFAULT_MITER_ANGLE = 0.1 * PI` (src/style.rs line 19). -/
def DEFAULT_MITER_ANGLE : ℚ := 3141592653589793 / 10000000000000000

/-- Engine-side line cap (`i_overlay_core mesh LineCap`): `Round` carries
the approximation angle, `Custom` carries an explicit point list. -/
inductive LineCap
  | Butt
  | Round (angle : ℚ)
  | Square
  | Custom (points : List Point)
deriving DecidableEq, Repr

/-- Engine-side line join (`i_overlay_core mesh LineJoin`). -/
inductive LineJoin
  | Bevel
  | Miter (angle : ℚ)
  | Round (angle : ℚ)
deriving DecidableEq, Repr

/-- Python-side stroke style (`PyStrokeStyle`, src/style.rs lines 29-58). -/
structure PyStrokeStyle where
  width : ℚ
  start_cap : PyLineCap
  end_cap : PyLineCap
  join : PyLineJoin
  round_cap_angle : ℚ
  join_angle : ℚ
  start_cap_points : Option (List Point)
  end_cap_points : Option (List Point)
deriving DecidableEq, Repr

/-- Embeds `PyStrokeStyle::new` (src/style.rs lines 79-104): stores the
width unchanged, fills angle defaults, and converts optional cap point
tuples into points. -/
def PyStrokeStyle.new (width : ℚ) (start_cap end_cap : PyLineCap)
    (join : PyLineJoin) (round_cap_angle join_angle : Option ℚ)
    (start_cap_points end_cap_points : Option (List PyPoint)) : PyStrokeStyle :=
  { width := width
    start_cap := start_cap
    end_cap := end_cap
    join := join
    round_cap_angle := round_cap_angle.getD DEFAULT_ROUND_ANGLE
    join_angle := join_angle.getD DEFAULT_MITER_ANGLE
    start_cap_points := start_cap_points.map (List.map fun p => ⟨p.1, p.2⟩)
    end_cap_points := end_cap_points.map (List.map fun p => ⟨p.1, p.2⟩) }

/-- Engine-side stroke style (`StrokeStyle<[f64; 2], f64>`). -/
structure StrokeStyle where
  width : ℚ
  start_cap : LineCap
  end_cap : LineCap
  join : LineJoin
deriving DecidableEq, Repr

/-- Embeds `PyStrokeStyle::to_rust_style` (src/style.rs lines 116-150):
custom cap points take precedence over the cap enum; a `Round` enum cap
uses `round_cap_angle`; the width is forwarded unchanged. -/
def PyStrokeStyle.to_rust_style (s : PyStrokeStyle) : StrokeStyle :=
  let start_cap :=
    match s.start_cap_points with
    | some points => LineCap.Custom points
    | none =>
      match s.start_cap with
      | .Butt => LineCap.Butt
      | .Round => LineCap.Round s.round_cap_angle
      | .Square => LineCap.Square
  let end_cap :=
    match s.end_cap_points with
    | some points => LineCap.Custom points
    | none =>
      match s.end_cap with
      | .Butt => LineCap.Butt
      | .Round => LineCap.Round s.round_cap_angle
      | .Square => LineCap.Square
  let join :=
    match s.join with
    | .Bevel => LineJoin.Bevel
    | .Miter => LineJoin.Miter s.join_angle
    | .Round => LineJoin.Round s.join_angle
  { width := s.width, start_cap := start_cap, end_cap := end_cap, join := join }

/-- Python-side outline style (`PyOutlineStyle`, src/style.rs lines 157-175). -/
structure PyOutlineStyle where
  outer_offset : ℚ
  inner_offset : ℚ
  join : PyLineJoin
  join_angle : ℚ
deriving DecidableEq, Repr

/-- Engine-side outline style (`OutlineStyle<f64>`). -/
structure OutlineStyle where
  outer_offset : ℚ
  inner_offset : ℚ
  join : LineJoin
deriving DecidableEq, Repr

/-- Embeds `PyOutlineStyle::to_rust_style` (src/style.rs lines 215-230). -/
def PyOutlineStyle.to_rust_style (s : PyOutlineStyle) : OutlineStyle :=
  let join :=
    match s.join with
    | .Bevel => LineJoin.Bevel
    | .Miter => LineJoin.Miter s.join_angle
    | .Round => LineJoin.Round s.join_angle
  { outer_offset := s.outer_offset, inner_offset := s.inner_offset, join := join }

/-! ## Stroke and outline entry points, mirroring src/stroke.rs and
src/outline.rs.  The engine's mesh-offset generator is not under src/;
it enters these embeddings as an explicit function parameter, with the
single documented piece of its behaviour needed here (width clamping)
modelled in `engineStroke`. -/

/-- Type of the unspecified remainder of the engine's stroke builder:
paths, the (engine-side) style, the closed flag, and the optional custom
overlay options. -/
abbrev StrokeImpl := Paths → StrokeStyle → Bool → Option OverlayOptions → Shapes

/-- Modelled from the spec: the engine's stroke builder
(`i_overlay_core::mesh::stroke`, not under src/).  Only the behaviour the
spec and the binding's own docstring state is modelled: "width ≥ 0
(negative clamped to 0)" — the engine clamps a negative width to 0 before
building the swept band; all remaining geometry is the opaque `impl`
parameter. -/
def engineStroke (impl : StrokeImpl) (paths : Paths) (style : StrokeStyle)
    (is_closed : Bool) (opts : Option OverlayOptions) : Shapes :=
  impl paths { style with width := max style.width 0 } is_closed opts

/-- Embeds `perform_stroke` (src/stroke.rs lines 70-89): an empty path
collection short-circuits to an empty result before the engine is
invoked; otherwise the converted style and options are handed to the
engine's `stroke_custom` / `stroke`. -/
def perform_stroke (impl : StrokeImpl) (paths : Paths) (py_style : PyStrokeStyle)
    (is_closed : Bool) (py_options : Option PyOverlayOptions) : Shapes :=
  if paths.isEmpty then [] else
  let rust_style := py_style.to_rust_style
  match py_options with
  | some opts => engineStroke impl paths rust_style is_closed
      (some (StrokeFfi.build_overlay_options opts))
  | none => engineStroke impl paths rust_style is_closed none

/-- Type of the engine's outline builder, opaque to this development. -/
abbrev OutlineImpl := Shapes → OutlineStyle → Option OverlayOptions → Shapes

/-- Embeds `perform_outline` (src/outline.rs lines 68-86): an empty shape
collection short-circuits to an empty result before the engine is
invoked. -/
def perform_outline (impl : OutlineImpl) (shapes : Shapes) (py_style : PyOutlineStyle)
    (py_options : Option PyOverlayOptions) : Shapes :=
  if shapes.isEmpty then [] else
  let rust_style := py_style.to_rust_style
  match py_options with
  | some opts => impl shapes rust_style (some (OutlineFfi.build_overlay_options opts))
  | none => impl shapes rust_style none

/-! ## Winding numbers.

Modelled from the spec (glossary "Winding number", section 4.4): the
signed count of directed boundary crossings along a horizontal ray from
the query point towards positive x.  Two monomorphic copies are kept: an
integer one used by the grid pipeline (where it is evaluated by the
kernel) and a rational one used by the region semantics. -/

/-- Twice the signed area of the triangle a, b, t; positive iff t lies to
the left of the directed segment a → b. -/
def crossZ (a b t : ℤ × ℤ) : ℤ :=
  (b.1 - a.1) * (t.2 - a.2) - (t.1 - a.1) * (b.2 - a.2)

/-- Modelled from the spec: contribution of one directed edge a → b to
the winding number at t (+1 for an upward crossing left of t's ray, -1
for a downward one). -/
def edgeWindingZ (a b t : ℤ × ℤ) : ℤ :=
  if a.2 ≤ t.2 ∧ t.2 < b.2 ∧ 0 < crossZ a b t then 1
  else if b.2 ≤ t.2 ∧ t.2 < a.2 ∧ crossZ a b t < 0 then -1
  else 0

/-- Winding contribution of one implicitly-closed contour at t. -/
def contourWindingZ (c : List (ℤ × ℤ)) (t : ℤ × ℤ) : ℤ :=
  ((c.zip (c.rotate 1)).map fun e => edgeWindingZ e.1 e.2 t).sum

/-- Accumulated winding number of a list of contours at t. -/
def windingAtZ (cs : List (List (ℤ × ℤ))) (t : ℤ × ℤ) : ℤ :=
  (cs.map fun c => contourWindingZ c t).sum

/-- Rational counterpart of `crossZ`. -/
def crossQ (a b t : ℚ × ℚ) : ℚ :=
  (b.1 - a.1) * (t.2 - a.2) - (t.1 - a.1) * (b.2 - a.2)

/-- Rational counterpart of `edgeWindingZ`. -/
def edgeWindingQ (a b t : ℚ × ℚ) : ℤ :=
  if a.2 ≤ t.2 ∧ t.2 < b.2 ∧ 0 < crossQ a b t then 1
  else if b.2 ≤ t.2 ∧ t.2 < a.2 ∧ crossQ a b t < 0 then -1
  else 0

/-- Rational counterpart of `contourWindingZ`. -/
def contourWindingQ (c : List (ℚ × ℚ)) (t : ℚ × ℚ) : ℤ :=
  ((c.zip (c.rotate 1)).map fun e => edgeWindingQ e.1 e.2 t).sum

/-- Rational counterpart of `windingAtZ`. -/
def windingAtQ (cs : List (List (ℚ × ℚ))) (t : ℚ × ℚ) : ℤ :=
  (cs.map fun c => contourWindingQ c t).sum

/-- Modelled from the spec (section 4.4): the fill predicate over the
accumulated winding number.  EvenOdd is winding parity, NonZero is
winding ≠ 0, Positive is winding > 0, Negative is winding < 0. -/
def specFill : FillRule → ℤ → Bool
  | .EvenOdd, w => decide (w % 2 ≠ 0)
  | .NonZero, w => decide (w ≠ 0)
  | .Positive, w => decide (0 < w)
  | .Negative, w => decide (w < 0)

/-- Modelled from the spec (sections 3 and 4.4): the boolean predicate of
an overlay rule over the two operands' fill states.  Subject and Clip are
the self-resolutions of a single operand. -/
def applyRule : OverlayRule → Bool → Bool → Bool
  | .Subject, a, _ => a
  | .Clip, _, b => b
  | .Intersect, a, b => a && b
  | .Union, a, b => a || b
  | .Difference, a, b => a && !b
  | .InverseDifference, a, b => !a && b
  | .Xor, a, b => xor a b

/-! ## Region semantics.

Modelled from the spec: the point-level meaning of a boolean overlay —
which points of the plane belong to the result region.  This layer is
independent of contour extraction and is used for the algebraic laws of
the overlay rules. -/

/-- All contours of a shape set, holes included (holes participate in the
winding sum with opposite orientation). -/
def allContoursQ (s : Shapes) : List (List (ℚ × ℚ)) :=
  s.flatten.map fun c => c.map fun p => (p.x, p.y)

/-- Modelled from the spec (section 4.4): whether the point p is filled
for the operand s under fill rule f. -/
def isFilled (s : Shapes) (f : FillRule) (p : ℚ × ℚ) : Bool :=
  specFill f (windingAtQ (allContoursQ s) p)

/-- Modelled from the spec (sections 3, 4.4): the membership predicate of
the result region of an overlay of subject and clip under rule r and fill
rule f. -/
def overlayRegion (subject clip : Shapes) (r : OverlayRule) (f : FillRule)
    (p : ℚ × ℚ) : Bool :=
  applyRule r (isFilled subject f p) (isFilled clip f p)

/-! ## Grid-based overlay engine.

Modelled from the spec (sections 4.3-4.5): an executable model of the
wrapped engine's arrangement / classification / extraction pipeline
(`i_overlay_core`, not under src/).  The model is restricted to inputs
whose coordinates are integers and whose edges are axis-aligned — every
concrete scenario of the claims is of this form.  The plane is cut into
unit cells; a cell is filled for an operand when the fill rule accepts
the winding number at the cell's centre; the rule's boolean predicate
classifies each cell of the result; the boundary between filled and
unfilled cells is walked into closed contours (counter-clockwise around
filled regions, so holes come out clockwise), and the extractor's
post-processing (collinear removal, orientation, minimum-area filter) is
applied. -/

/-- Floor of a rational, used to place input vertices on the grid (exact
for the integer coordinates the model is restricted to). -/
def ratFloor (q : ℚ) : ℤ :=
  q.num.fdiv (q.den : ℤ)

/-- All contours of a shape set as integer grid points. -/
def allContoursZ (s : Shapes) : List (List (ℤ × ℤ)) :=
  s.flatten.map fun c => c.map fun p => (ratFloor p.x, ratFloor p.y)

/-- Contours with doubled coordinates, so that cell centres become odd
integer points and never meet an input vertex or edge. -/
def doubleZ (cs : List (List (ℤ × ℤ))) : List (List (ℤ × ℤ)) :=
  cs.map fun c => c.map fun p => (2 * p.1, 2 * p.2)

/-- Whether the unit cell with lower-left corner (i, j) is filled for the
operand cs under fill rule f: the fill predicate at the cell's centre. -/
def cellFilled (cs : List (List (ℤ × ℤ))) (f : FillRule) (i j : ℤ) : Bool :=
  specFill f (windingAtZ (doubleZ cs) (2 * i + 1, 2 * j + 1))

/-- The four axis directions of grid boundary edges. -/
inductive GridDir
  | E
  | N
  | W
  | S
deriving DecidableEq, BEq, Repr

/-- Counter-clockwise quarter turn. -/
def GridDir.turnL : GridDir → GridDir
  | .E => .N
  | .N => .W
  | .W => .S
  | .S => .E

/-- Clockwise quarter turn. -/
def GridDir.turnR : GridDir → GridDir
  | .E => .S
  | .S => .W
  | .W => .N
  | .N => .E

/-- Unit vector of a direction. -/
def GridDir.vec : GridDir → ℤ × ℤ
  | .E => (1, 0)
  | .N => (0, 1)
  | .W => (-1, 0)
  | .S => (0, -1)

/-- A directed boundary edge: its start vertex and its direction. -/
abbrev DirEdge := (ℤ × ℤ) × GridDir

/-- End vertex of a directed edge starting at v. -/
def stepV (v : ℤ × ℤ) (d : GridDir) : ℤ × ℤ :=
  (v.1 + d.vec.1, v.2 + d.vec.2)

/-- Bounding box of a list of grid points. -/
structure GridBox where
  xmin : ℤ
  ymin : ℤ
  xmax : ℤ
  ymax : ℤ
deriving DecidableEq, Repr

/-- Bounding box of all input vertices (empty input gives a degenerate
box with no cells). -/
def boxOf : List (ℤ × ℤ) → GridBox
  | [] => ⟨0, 0, 0, 0⟩
  | p :: ps =>
    ps.foldl (fun b q => ⟨min b.xmin q.1, min b.ymin q.2, max b.xmax q.1, max b.ymax q.2⟩)
      ⟨p.1, p.2, p.1, p.2⟩

/-- The counter-clockwise boundary edges contributed by the filled cell
(i, j): each side whose neighbouring cell is unfilled, oriented with the
filled region on the left. -/
def cellEdges (cell : ℤ → ℤ → Bool) (i j : ℤ) : List DirEdge :=
  (if cell i (j - 1) then [] else [((i, j), GridDir.E)]) ++
  (if cell (i + 1) j then [] else [((i + 1, j), GridDir.N)]) ++
  (if cell i (j + 1) then [] else [((i + 1, j + 1), GridDir.W)]) ++
  (if cell (i - 1) j then [] else [((i, j + 1), GridDir.S)])

/-- All boundary edges of the classified cell set inside the bounding box
(cells outside the box are unfilled, since every fill rule rejects
winding 0 and every rule's predicate rejects two unfilled operands). -/
def boundaryEdges (cell : ℤ → ℤ → Bool) (box : GridBox) : List DirEdge :=
  (List.range (box.xmax - box.xmin).toNat).flatMap fun di =>
    (List.range (box.ymax - box.ymin).toNat).flatMap fun dj =>
      let i := box.xmin + di
      let j := box.ymin + dj
      if cell i j then cellEdges cell i j else []

/-- Deterministic edge successor choice at a vertex: prefer the left
turn, then straight on, then the right turn (the tie-break of section 4.3
for vertices where several boundary edges meet). -/
def pickNext (rem : List DirEdge) (v : ℤ × ℤ) (d : GridDir) : Option DirEdge :=
  if rem.contains (v, d.turnL) then some (v, d.turnL)
  else if rem.contains (v, d) then some (v, d)
  else if rem.contains (v, d.turnR) then some (v, d.turnR)
  else none

/-- Walks one closed cycle of boundary edges starting with edge e, whose
start vertex is the walk's origin; returns the cycle's edges in order and
the remaining unvisited edges.  Fuel bounds the recursion by the number
of edges. -/
def walkCycle : ℕ → List DirEdge → (ℤ × ℤ) → DirEdge → List DirEdge × List DirEdge
  | 0, rem, _, _ => ([], rem)
  | fuel + 1, rem, origin, e =>
    let rem2 := rem.erase e
    let v2 := stepV e.1 e.2
    if v2 = origin then ([e], rem2)
    else
      match pickNext rem2 v2 e.2 with
      | some e2 =>
        let r := walkCycle fuel rem2 origin e2
        (e :: r.1, r.2)
      | none => ([e], rem2)

/-- Extracts every cycle: each walk starts at the first remaining edge and
marks its edges visited, so every edge is consumed by exactly one walk. -/
def extractCycles : ℕ → List DirEdge → List (List DirEdge)
  | 0, _ => []
  | _, [] => []
  | fuel + 1, e :: rest =>
    let r := walkCycle (e :: rest).length (e :: rest) e.1 e
    r.1 :: extractCycles fuel r.2

/-- Vertices of a cycle: every edge start, or — unless collinear points
are preserved — only the starts where the direction changes. -/
def cycleVertices (preserve_collinear : Bool) (cyc : List DirEdge) : List (ℤ × ℤ) :=
  if preserve_collinear then cyc.map fun e => e.1
  else
    match cyc.getLast? with
    | none => []
    | some la =>
      (cyc.zip (la :: cyc.dropLast)).filterMap fun pe =>
        if pe.1.2 = pe.2.2 then none else some pe.1.1

/-- A contour of integer grid vertices. -/
abbrev ZContour := List (ℤ × ℤ)

/-- A grid vertex as a rational point. -/
def gridPoint (v : ℤ × ℤ) : Point :=
  ⟨(v.1 : ℚ), (v.2 : ℚ)⟩

/-- Grid vertices back to rational points. -/
def gridToContour (vs : ZContour) : Contour :=
  vs.map gridPoint

/-- Shoelace sum of consecutive-pair cross products, with closing edge
back to p0. -/
def shoelaceSumZ (p0 : ℤ × ℤ) : ZContour → ℤ
  | [] => 0
  | [p] => p.1 * p0.2 - p0.1 * p.2
  | p :: q :: rest => (p.1 * q.2 - q.1 * p.2) + shoelaceSumZ p0 (q :: rest)

/-- Twice the signed area of an implicitly-closed grid contour. -/
def signedArea2Z : ZContour → ℤ
  | [] => 0
  | p :: rest => shoelaceSumZ p (p :: rest)

/-- Rational shoelace sum of a contour, closing back to p0. -/
def shoelaceSum (p0 : Point) : List Point → ℚ
  | [] => 0
  | [p] => p.x * p0.y - p0.x * p.y
  | p :: q :: rest => (p.x * q.y - q.x * p.y) + shoelaceSum p0 (q :: rest)

/-- Signed area of a contour; positive for counter-clockwise orientation. -/
def signedArea : Contour → ℚ
  | [] => 0
  | p :: rest => shoelaceSum p (p :: rest) / 2

/-- Whether the grid contour is counter-clockwise. -/
def isCCWZ (c : ZContour) : Bool :=
  decide (0 < signedArea2Z c)

/-- Whether the grid point p lies inside the grid contour (nonzero
winding at the doubled point), used to nest holes in their outer
boundary. -/
def containsPointZ (c : ZContour) (p : ℤ × ℤ) : Bool :=
  decide (windingAtZ (doubleZ [c]) (2 * p.1, 2 * p.2) ≠ 0)

/-- Modelled from the spec (section 4.5): nesting of holes within outer
boundaries is derived from containment — each counter-clockwise contour
becomes a shape's outer boundary and collects the clockwise contours it
contains as its holes. -/
def groupShapesZ (contours : List ZContour) : List (List ZContour) :=
  let outers := contours.filter isCCWZ
  let holes := contours.filter fun c => !(isCCWZ c)
  outers.map fun o =>
    o :: holes.filter fun h =>
      match h.head? with
      | none => false
      | some p => containsPointZ o p

/-- Modelled from the spec (section 3): `output_direction` forces the
winding of returned contours; the extractor produces counter-clockwise
outer boundaries, so a clockwise request reverses every contour. -/
def orientShapesZ (d : ContourDirection) (ss : List (List ZContour)) : List (List ZContour) :=
  match d with
  | .CounterClockwise => ss
  | .Clockwise => ss.map fun s => s.map List.reverse

/-- Whether the threshold k is at most half the absolute value of the
doubled area a2; equivalent to `k ≤ |a2| / 2` but expressed with integer
arithmetic on k's numerator and denominator. -/
def ratLeAbsHalf (k : ℚ) (a2 : ℤ) : Bool :=
  decide (2 * k.num ≤ (k.den : ℤ) * (a2.natAbs : ℤ))

/-- Modelled from the spec (section 4.5): a contour is dropped when its
absolute signed area is below the `min_output_area` threshold; shapes
left with no contours are dropped. -/
def filterMinAreaZ (k : ℚ) (ss : List (List ZContour)) : List (List ZContour) :=
  (ss.map fun s => s.filter fun c => ratLeAbsHalf k (signedArea2Z c)).filter
    fun s => !s.isEmpty

/-- Modelled from the spec (section 4.5): the extractor's post-processing,
orientation normalization followed by the minimum-area filter (collinear
removal happens during cycle extraction). -/
def postProcessZ (opts : OverlayOptions) (ss : List (List ZContour)) : List (List ZContour) :=
  filterMinAreaZ opts.min_output_area (orientShapesZ opts.output_direction ss)

/-- Modelled from the spec (sections 4.3-4.5): the wrapped engine's
`FloatOverlay` boolean pipeline (`i_overlay_core::float::overlay`, not
under src/), as the grid model described above.  The solver is accepted
and ignored: section 4.2 states it is a pure performance policy with no
observable output. -/
def floatOverlayRun (subject clip : Shapes) (rule : OverlayRule) (fill : FillRule)
    (opts : OverlayOptions) (solver : Solver) : Shapes :=
  let _ := solver
  let sz := allContoursZ subject
  let cz := allContoursZ clip
  let box := boxOf (sz.flatten ++ cz.flatten)
  let cell := fun i j => applyRule rule (cellFilled sz fill i j) (cellFilled cz fill i j)
  let edges := boundaryEdges cell box
  let cycles := extractCycles (edges.length + 1) edges
  let contours := cycles.map (cycleVertices opts.preserve_output_collinear)
  (postProcessZ opts (groupShapesZ contours)).map fun s => s.map gridToContour

/-! ## Overlay entry points, mirroring src/overlay.rs -/

/-- Embeds `perform_overlay` (src/overlay.rs lines 117-133): defaults the
options, converts options and solver, and runs the engine's overlay. -/
def perform_overlay (subject clip : Shapes) (overlay_rule : OverlayRule)
    (fill_rule : FillRule) (py_options : Option PyOverlayOptions)
    (py_solver : Option PySolver) : Shapes :=
  let options_ref := py_options.getD PyOverlayOptions.default
  let rust_options := OverlayFfi.build_overlay_options options_ref
  let solver := build_solver py_solver
  floatOverlayRun subject clip overlay_rule fill_rule rust_options solver

/-- Embeds the `overlay` pyfunction (src/overlay.rs lines 86-114):
extracts both operands from the host representation, performs the overlay
and converts the result back. -/
def overlay (subject clip : PyShapes) (overlay_rule : PyOverlayRule)
    (fill_rule : PyFillRule) (options : Option PyOverlayOptions)
    (solver : Option PySolver) : Except PyErr PyShapes := do
  let subj_shapes ← extract_shapes subject
  let clip_shapes ← extract_shapes clip
  pure (shapes_to_python (perform_overlay subj_shapes clip_shapes
    overlay_rule.toOverlayRule fill_rule.toFillRule options solver))

/-- Modelled from the spec: the artifact returned by the engine's
`build_graph_view` (`i_overlay_core`, not under src/).  In this model it
carries the data the classified graph is a function of; rule extraction
runs the pipeline on it. -/
structure OverlayGraphView where
  subject : Shapes
  clip : Shapes
  fill_rule : FillRule
  opts : OverlayOptions
  solver : Solver
deriving DecidableEq, Repr

/-- Modelled from the spec: `FloatOverlay::build_graph_view` (not under
src/); always yields a graph view in this model (the engine's `None` case
signals an empty arrangement, for which extraction also returns nothing). -/
def buildGraphView (subject clip : Shapes) (fill : FillRule)
    (opts : OverlayOptions) (solver : Solver) : Option OverlayGraphView :=
  some ⟨subject, clip, fill, opts, solver⟩

/-- Modelled from the spec (section 4.5): rule extraction from a built
graph view — the boolean predicate is applied at extraction time. -/
def OverlayGraphView.extract_shapes (g : OverlayGraphView) (rule : OverlayRule) : Shapes :=
  floatOverlayRun g.subject g.clip rule g.fill_rule g.opts g.solver

/-- Embeds the `PyFloatOverlayGraph` pyclass state (src/overlay.rs lines
156-164): the stored fields are the converted input shapes, the fill
rule, the options and the solver — not a built graph. -/
structure PyFloatOverlayGraph where
  subject : Shapes
  clip : Shapes
  fill_rule : FillRule
  options : PyOverlayOptions
  solver : Option PySolver
deriving DecidableEq, Repr

/-- Embeds `PyFloatOverlayGraph::new` (src/overlay.rs lines 177-196):
construction only converts the operands and stores the configuration. -/
def PyFloatOverlayGraph.new (subject clip : PyShapes) (fill_rule : PyFillRule)
    (options : Option PyOverlayOptions) (solver : Option PySolver) :
    Except PyErr PyFloatOverlayGraph := do
  let subj_shapes ← extract_shapes subject
  let clip_shapes ← extract_shapes clip
  pure ⟨subj_shapes, clip_shapes, fill_rule.toFillRule,
    options.getD PyOverlayOptions.default, solver⟩

/-- Embeds `PyFloatOverlayGraph::extract_shapes` (src/overlay.rs lines
208-225): every call rebuilds the overlay from the stored input shapes,
builds the graph view and only then extracts under the requested rule. -/
def PyFloatOverlayGraph.extractShapes (g : PyFloatOverlayGraph)
    (overlay_rule : PyOverlayRule) : PyShapes :=
  let rust_options := OverlayFfi.build_overlay_options g.options
  let solver := build_solver g.solver
  let result :=
    match buildGraphView g.subject g.clip g.fill_rule rust_options solver with
    | some graph => graph.extract_shapes overlay_rule.toOverlayRule
    | none => []
  shapes_to_python result

/-! ## Concrete scenario data (section 8 of the spec) -/

/-- The subject square [(0,0),(0,2),(2,2),(2,0)] of the concrete scenario. -/
def squareSubject : Contour := [⟨0, 0⟩, ⟨0, 2⟩, ⟨2, 2⟩, ⟨2, 0⟩]

/-- The clip square [(1,1),(1,3),(3,3),(3,1)] of the concrete scenario. -/
def squareClip : Contour := [⟨1, 1⟩, ⟨1, 3⟩, ⟨3, 3⟩, ⟨3, 1⟩]

/-- The subject square in the host representation. -/
def pySquareSubject : PyShapes := [[[(0, 0), (0, 2), (2, 2), (2, 0)]]]

/-- The clip square in the host representation. -/
def pySquareClip : PyShapes := [[[(1, 1), (1, 3), (3, 3), (3, 1)]]]

/-- The contour the model returns for Union/EvenOdd of the two squares:
the staircase octagon bounding their union, counter-clockwise. -/
def unionResultContour : Contour :=
  [⟨0, 0⟩, ⟨2, 0⟩, ⟨2, 1⟩, ⟨3, 1⟩, ⟨3, 3⟩, ⟨1, 3⟩, ⟨1, 2⟩, ⟨0, 2⟩]

/-- The contour the model returns for Intersect/EvenOdd of the two
squares: the unit square [1,2] x [1,2], counter-clockwise. -/
def intersectResultContour : Contour := [⟨1, 1⟩, ⟨2, 1⟩, ⟨2, 2⟩, ⟨1, 2⟩]

/-- The intersection square exactly as the claim lists its vertices. -/
def claimIntersectSquare : Contour := [⟨1, 1⟩, ⟨1, 2⟩, ⟨2, 2⟩, ⟨2, 1⟩]

/-- The contour the model returns when self-resolving the subject square. -/
def resolvedSquare : Contour := [⟨0, 0⟩, ⟨2, 0⟩, ⟨2, 2⟩, ⟨0, 2⟩]

/-! ## Helper lemmas -/

/-- Converting one contour never fails and maps each tuple to a point. -/
theorem mapM_extract_contour_ok (sh : PyShape) :
    sh.mapM extract_contour
      = Except.ok (sh.map fun c => c.map fun p => (⟨p.1, p.2⟩ : Point)) := by
  induction sh with
  | nil => rfl
  | cons c tl ih => rw [List.mapM_cons, ih]; rfl

/-- Converting a shape set never fails and maps every tuple to a point. -/
theorem extract_shapes_ok (s : PyShapes) :
    extract_shapes s
      = Except.ok (s.map fun sh => sh.map fun c => c.map fun p => (⟨p.1, p.2⟩ : Point)) := by
  unfold extract_shapes
  induction s with
  | nil => rfl
  | cons sh tl ih => rw [List.mapM_cons, mapM_extract_contour_ok, ih]; rfl

/-- Converting the extracted structure back yields the original host data. -/
theorem shapes_to_python_extract (s : PyShapes) :
    shapes_to_python (s.map fun sh => sh.map fun c => c.map fun p => (⟨p.1, p.2⟩ : Point))
      = s := by
  simp [shapes_to_python, shape_to_python, contour_to_python, List.map_map,
    Function.comp_def]

/-- The rational shoelace sum of grid points is the cast of the integer one. -/
theorem shoelaceSum_gridPoint (p0 : ℤ × ℤ) (l : ZContour) :
    shoelaceSum (gridPoint p0) (l.map gridPoint) = ((shoelaceSumZ p0 l : ℤ) : ℚ) := by
  induction l with
  | nil => simp [shoelaceSum, shoelaceSumZ]
  | cons p tl ih =>
    cases tl with
    | nil =>
      show (p.1 : ℚ) * (p0.2 : ℚ) - (p0.1 : ℚ) * (p.2 : ℚ) = _
      push_cast [shoelaceSumZ]
      ring
    | cons q rest =>
      have h1 : shoelaceSum (gridPoint p0) ((p :: q :: rest).map gridPoint)
          = ((p.1 : ℚ) * (q.2 : ℚ) - (q.1 : ℚ) * (p.2 : ℚ))
            + shoelaceSum (gridPoint p0) ((q :: rest).map gridPoint) := rfl
      have h2 : shoelaceSumZ p0 (p :: q :: rest)
          = (p.1 * q.2 - q.1 * p.2) + shoelaceSumZ p0 (q :: rest) := rfl
      rw [h1, ih, h2]
      push_cast
      ring

/-- The signed area of a grid contour is half its integer doubled area. -/
theorem signedArea_gridToContour (l : ZContour) :
    signedArea (gridToContour l) = ((signedArea2Z l : ℤ) : ℚ) / 2 := by
  cases l with
  | nil => simp [gridToContour, signedArea, signedArea2Z]
  | cons p tl =>
    show shoelaceSum (gridPoint p) ((p :: tl).map gridPoint) / 2 = _
    rw [shoelaceSum_gridPoint]
    rfl

/-- The integer area test of the filter implies the rational bound. -/
theorem ratLeAbsHalf_natCast {K : ℕ} {a : ℤ}
    (h : ratLeAbsHalf (K : ℚ) a = true) : (K : ℚ) ≤ |((a : ℤ) : ℚ) / 2| := by
  have h' := of_decide_eq_true h
  rw [Rat.num_natCast, Rat.den_natCast] at h'
  have h2 : 2 * (K : ℤ) ≤ (a.natAbs : ℤ) := by simpa using h'
  rw [abs_div]
  have ha : |((a : ℤ) : ℚ)| = ((a.natAbs : ℤ) : ℚ) := by
    rw [← Int.cast_abs, Int.abs_eq_natAbs]
  rw [ha]
  rw [show |(2 : ℚ)| = 2 by norm_num]
  rw [le_div_iff₀ (by norm_num : (0 : ℚ) < 2)]
  calc ((K : ℚ)) * 2 = ((2 * (K : ℤ) : ℤ) : ℚ) := by push_cast; ring
    _ ≤ ((a.natAbs : ℤ) : ℚ) := by exact_mod_cast h2

/-- Every contour surviving the minimum-area filter passes the area test. -/
theorem mem_filterMinAreaZ {k : ℚ} {ss : List (List ZContour)} {s : List ZContour}
    {c : ZContour} (hs : s ∈ filterMinAreaZ k ss) (hc : c ∈ s) :
    ratLeAbsHalf k (signedArea2Z c) = true := by
  unfold filterMinAreaZ at hs
  obtain ⟨hs1, -⟩ := List.mem_filter.mp hs
  obtain ⟨s0, -, rfl⟩ := List.mem_map.mp hs1
  exact (List.mem_filter.mp hc).2

/-- Post-processing of an empty extraction yields an empty result. -/
theorem postProcessZ_nil (o : OverlayOptions) : postProcessZ o [] = [] := by
  unfold postProcessZ orientShapesZ filterMinAreaZ
  cases o.output_direction <;> rfl

/-! ## Claim theorems -/

/-- C1, counterexample: for the two concrete squares, Union/EvenOdd
returns exactly one contour, but that contour has 8 vertices, not the 6
the claim states — the union of the two overlapping squares is a
staircase octagon. -/
theorem C1_counterexample :
    overlay pySquareSubject pySquareClip .Union .EvenOdd none none
      = Except.ok [[contour_to_python unionResultContour]] ∧
    (contour_to_python unionResultContour).length ≠ 6 := by
  exact ⟨by rfl, by decide⟩

/-- C1, amended: for subject [(0,0),(0,2),(2,2),(2,0)] and clip
[(1,1),(1,3),(3,3),(3,1)], Union/EvenOdd returns exactly one contour with
8 vertices of absolute area 7, and Intersect/EvenOdd returns exactly one
contour that is, as a point set, the square [(1,1),(1,2),(2,2),(2,1)] of
absolute area 1. -/
theorem C1_squares_union_intersect :
    overlay pySquareSubject pySquareClip .Union .EvenOdd none none
      = Except.ok [[contour_to_python unionResultContour]] ∧
    unionResultContour.length = 8 ∧
    |signedArea unionResultContour| = 7 ∧
    overlay pySquareSubject pySquareClip .Intersect .EvenOdd none none
      = Except.ok [[contour_to_python intersectResultContour]] ∧
    List.Perm intersectResultContour claimIntersectSquare ∧
    |signedArea intersectResultContour| = 1 := by
  refine ⟨by rfl, by decide, ?_, by rfl, by decide, ?_⟩
  · norm_num [unionResultContour, signedArea, shoelaceSum]
  · norm_num [intersectResultContour, signedArea, shoelaceSum]

/-- C2, evaluation at the failing input: constructing a
FloatOverlayGraph from the two squares succeeds (storing only the
converted inputs), and each extract_shapes call re-runs the whole
pipeline from those stored inputs, producing the boolean results. -/
theorem C2_graph_extractions :
    Except.map (fun g => (g.extractShapes .Union, g.extractShapes .Intersect))
      (PyFloatOverlayGraph.new pySquareSubject pySquareClip .EvenOdd none none)
      = Except.ok ([[contour_to_python unionResultContour]],
          [[contour_to_python intersectResultContour]]) := by
  rfl

/-- C3: converting a ShapeSet across the boundary into the internal
representation and back out yields the identical nested structure —
coordinate values, point order, contour order and shape order are all
preserved exactly. -/
theorem C3_roundtrip (s : PyShapes) :
    Except.map shapes_to_python (extract_shapes s) = Except.ok s := by
  rw [extract_shapes_ok]
  show Except.ok (shapes_to_python _) = _
  rw [shapes_to_python_extract]

/-- C4: with `min_output_area` set to K, no contour returned by the
overlay has absolute signed area below K, for any operands, overlay rule,
fill rule and solver. -/
theorem C4_min_output_area (o : PyOverlayOptions) (subject clip : Shapes)
    (rule : OverlayRule) (fill : FillRule) (solver : Option PySolver)
    (s : Shape) (c : Contour)
    (hs : s ∈ perform_overlay subject clip rule fill (some o) solver)
    (hc : c ∈ s) : (o.min_output_area : ℚ) ≤ |signedArea c| := by
  simp only [perform_overlay, floatOverlayRun, Option.getD_some] at hs
  obtain ⟨zs, hzs, rfl⟩ := List.mem_map.mp hs
  obtain ⟨zc, hzc, rfl⟩ := List.mem_map.mp hc
  have h := mem_filterMinAreaZ hzs hzc
  rw [signedArea_gridToContour]
  exact ratLeAbsHalf_natCast h

/-- C4, witness: with min_output_area 1, the union of the two squares is
returned and its contour's absolute area is at least 1. -/
theorem C4_min_output_area_witness :
    ((1 : ℕ) : ℚ) ≤ |signedArea unionResultContour| :=
  C4_min_output_area ⟨false, .CounterClockwise, false, 1⟩ [[squareSubject]]
    [[squareClip]] .Union .EvenOdd none [unionResultContour] unionResultContour
    (by decide) (by decide)

/-- C5, counterexample: a contour with only 2 points (already free of
consecutive duplicates) is accepted without any error by
`extract_contour` and by the shape-consuming `extract_shapes` — no
InvalidGeometry rejection happens in the binding. -/
theorem C5_counterexample :
    extract_contour [((0 : ℚ), (0 : ℚ)), (1, 1)] = Except.ok [⟨0, 0⟩, ⟨1, 1⟩] ∧
    extract_shapes [[[((0 : ℚ), (0 : ℚ)), (1, 1)]]] = Except.ok [[[⟨0, 0⟩, ⟨1, 1⟩]]] ∧
    ([⟨0, 0⟩, ⟨1, 1⟩] : Contour).length < 3 := by
  exact ⟨rfl, rfl, by decide⟩

/-- C5, amended: input conversion performs no validation at all — every
contour, of any length, is converted successfully and forwarded to the
engine unchanged; no InvalidGeometry error is raised by the binding
layer. -/
theorem C5_no_validation :
    (∀ obj : PyContour,
        extract_contour obj = Except.ok (obj.map fun p => (⟨p.1, p.2⟩ : Point))) ∧
    (∀ s : PyShapes,
        extract_shapes s
          = Except.ok (s.map fun sh => sh.map fun c => c.map fun p => (⟨p.1, p.2⟩ : Point))) :=
  ⟨fun _ => rfl, extract_shapes_ok⟩

/-- C6, counterexample: the Subject rule is not commutative —
overlay(A, [], Subject) resolves A while overlay([], A, Subject) is
empty, so "every OverlayRule other than Difference and
InverseDifference is commutative" fails at the Subject rule. -/
theorem C6_counterexample :
    perform_overlay [[squareSubject]] [] .Subject .EvenOdd none none = [[resolvedSquare]] ∧
    perform_overlay [] [[squareSubject]] .Subject .EvenOdd none none = [] ∧
    ([[resolvedSquare]] : Shapes) ≠ [] := by
  exact ⟨by decide, by decide, by decide⟩

/-- C6, amended: at the region level, Intersect, Union and Xor are
commutative; Difference and InverseDifference are mirror images of each
other, and so are Subject and Clip. -/
theorem C6_rule_algebra (a b : Shapes) (f : FillRule) (p : ℚ × ℚ) :
    overlayRegion a b .Intersect f p = overlayRegion b a .Intersect f p ∧
    overlayRegion a b .Union f p = overlayRegion b a .Union f p ∧
    overlayRegion a b .Xor f p = overlayRegion b a .Xor f p ∧
    overlayRegion a b .Difference f p = overlayRegion b a .InverseDifference f p ∧
    overlayRegion a b .Subject f p = overlayRegion b a .Clip f p := by
  cases hA : isFilled a f p <;> cases hB : isFilled b f p <;>
    simp [overlayRegion, applyRule, hA, hB]

/-- C7, counterexample: constructing a StrokeStyle with width -1 stores
width -1 (no clamping to 0 happens in the binding), and the converted
engine style also carries width -1 across the boundary. -/
theorem C7_counterexample :
    (PyStrokeStyle.new (-1) .Butt .Butt .Bevel none none none none).width = -1 ∧
    (PyStrokeStyle.new (-1) .Butt .Butt .Bevel none none none none).to_rust_style.width
      = -1 ∧
    ((-1 : ℚ) ≠ 0) := by
  exact ⟨rfl, rfl, by decide⟩

/-- C7, amended: the binding stores and forwards a negative width
unchanged; the clamping to 0 is performed inside the wrapped engine (as
the constructor's own note documents), so the stroke produced with a
negative width still equals the stroke produced with width 0. -/
theorem C7_negative_width (impl : StrokeImpl) (paths : Paths) (is_closed : Bool)
    (opts : Option PyOverlayOptions) (s : PyStrokeStyle) (h : s.width < 0) :
    s.to_rust_style.width = s.width ∧
    perform_stroke impl paths s is_closed opts
      = perform_stroke impl paths { s with width := 0 } is_closed opts := by
  refine ⟨rfl, ?_⟩
  unfold perform_stroke
  cases hp : paths.isEmpty with
  | true => rfl
  | false =>
    have hmax : max s.width 0 = max (0 : ℚ) 0 := by
      rw [max_eq_right h.le, max_self]
    cases opts <;>
      simp [engineStroke, PyStrokeStyle.to_rust_style, hmax]

/-- C7, witness: the amended statement instantiated at width -1 with a
one-point path and a trivial engine. -/
theorem C7_negative_width_witness :
    (PyStrokeStyle.new (-1) .Butt .Butt .Bevel none none none none).to_rust_style.width
        = (PyStrokeStyle.new (-1) .Butt .Butt .Bevel none none none none).width ∧
    perform_stroke (fun _ _ _ _ => []) [[⟨0, 0⟩]]
        (PyStrokeStyle.new (-1) .Butt .Butt .Bevel none none none none) false none
      = perform_stroke (fun _ _ _ _ => []) [[⟨0, 0⟩]]
        { PyStrokeStyle.new (-1) .Butt .Butt .Bevel none none none none with width := 0 }
        false none :=
  C7_negative_width (fun _ _ _ _ => []) [[⟨0, 0⟩]] false none
    (PyStrokeStyle.new (-1) .Butt .Butt .Bevel none none none none) (by decide)

/-- C8: degenerate input does not fail — stroking an empty path
collection and outlining an empty shape collection return the empty shape
list before the engine is even reached, and the overlay of two empty
operands returns an empty result, for every rule, fill rule, option and
solver. -/
theorem C8_empty_inputs :
    (∀ (impl : StrokeImpl) (style : PyStrokeStyle) (is_closed : Bool)
        (opts : Option PyOverlayOptions),
        perform_stroke impl [] style is_closed opts = []) ∧
    (∀ (impl : OutlineImpl) (style : PyOutlineStyle) (opts : Option PyOverlayOptions),
        perform_outline impl [] style opts = []) ∧
    (∀ (rule : OverlayRule) (fill : FillRule) (opts : Option PyOverlayOptions)
        (solver : Option PySolver),
        perform_overlay [] [] rule fill opts solver = []) := by
  refine ⟨fun impl style is_closed opts => rfl, fun impl style opts => rfl,
    fun rule fill opts solver => ?_⟩
  have hrun : perform_overlay [] [] rule fill opts solver
      = (postProcessZ (OverlayFfi.build_overlay_options (opts.getD PyOverlayOptions.default))
          []).map (fun zs => zs.map gridToContour) := rfl
  rw [hrun, postProcessZ_nil]
  rfl

/-- C9: every conversion of caller options into engine options — in the
overlay module (also used by graph extraction), the stroke module, the
slice module and the outline module — sets the engine's clean_result
flag to true, for every caller-supplied option record. -/
theorem C9_clean_result (o : PyOverlayOptions) :
    (OverlayFfi.build_overlay_options o).clean_result = true ∧
    (StrokeFfi.build_overlay_options o).clean_result = true ∧
    (SliceFfi.build_overlay_options o).clean_result = true ∧
    (OutlineFfi.build_overlay_options o).clean_result = true :=
  ⟨rfl, rfl, rfl, rfl⟩

/-- C10: when custom cap points are present the converted style uses a
Custom cap built from exactly those points (the cap enum is not
consulted); when absent, the enum selects the cap, with Round receiving
round_cap_angle as its approximation parameter. -/
theorem C10_cap_selection (s : PyStrokeStyle) :
    (∀ pts, s.start_cap_points = some pts →
        s.to_rust_style.start_cap = LineCap.Custom pts) ∧
    (∀ pts, s.end_cap_points = some pts →
        s.to_rust_style.end_cap = LineCap.Custom pts) ∧
    (s.start_cap_points = none → s.to_rust_style.start_cap =
      (match s.start_cap with
       | PyLineCap.Butt => LineCap.Butt
       | PyLineCap.Round => LineCap.Round s.round_cap_angle
       | PyLineCap.Square => LineCap.Square)) ∧
    (s.end_cap_points = none → s.to_rust_style.end_cap =
      (match s.end_cap with
       | PyLineCap.Butt => LineCap.Butt
       | PyLineCap.Round => LineCap.Round s.round_cap_angle
       | PyLineCap.Square => LineCap.Square)) := by
  refine ⟨fun pts h => ?_, fun pts h => ?_, fun h => ?_, fun h => ?_⟩ <;>
    simp [PyStrokeStyle.to_rust_style, h]

/-- C10, witness: a style built with custom start-cap points and a Butt
end cap converts to a Custom start cap from exactly those points and a
Butt end cap. -/
theorem C10_cap_selection_witness :
    (PyStrokeStyle.new 2 .Round .Butt .Bevel none none
        (some [((1 : ℚ), (1 : ℚ))]) none).to_rust_style.start_cap
      = LineCap.Custom [⟨1, 1⟩] ∧
    (PyStrokeStyle.new 2 .Round .Butt .Bevel none none
        (some [((1 : ℚ), (1 : ℚ))]) none).to_rust_style.end_cap
      = LineCap.Butt :=
  ⟨(C10_cap_selection _).1 [⟨1, 1⟩] rfl, (C10_cap_selection _).2.2.2 rfl⟩

end IOverlay
